import Mathlib

set_option maxHeartbeats 1000000
set_option maxRecDepth 100000

/-!
Shallow embedding of the skill-tree rendering pipeline, translated from
`src/tree.rs` (the data model and the `validate` methods) and
`src/graphviz.rs` (reference resolution, style resolution, label
rendering and graph emission).

Modelling conventions:
- The `HashMap<String, StatusStyle>` status registry is modelled as an
  association list `List (String × StatusStyle)`; the code only ever
  calls `get` on it, which is modelled as first-match lookup.
- The output sink (`&mut dyn Write`) is modelled as a pure `String`
  accumulated in order; sink I/O errors are outside the model, so the
  only failure channel left is the "missing port" error, modelled with
  `Except String`.
- `Group.width : Option<f64>` is never read by any code under
  verification and is omitted from the model.
- `htmlescape::encode_minimal` (an external crate) encodes exactly the
  five markup-significant characters (ampersand, less-than, greater-than,
  double quote, apostrophe) as HTML entities and leaves every other
  character unchanged; it is embedded per that behaviour.
-/

namespace STree

/-- The quote character, `"` (avoids a quote inside a character literal). -/
def dquote : Char := Char.ofNat 34

/-- The apostrophe character (avoids an apostrophe inside a character literal). -/
def squote : Char := Char.ofNat 39

/-- Visual style attached to a status name (`tree.rs`, `StatusStyle`). -/
structure StatusStyle where
  emoji : Option String
  bgcolor : Option String
  fontcolor : Option String
  start_tag : String
  end_tag : String
deriving DecidableEq, Repr

/-- `#[derive(Default)]` for `StatusStyle`: all options `None`, both tags empty. -/
def StatusStyle.default : StatusStyle :=
  { emoji := none, bgcolor := none, fontcolor := none, start_tag := "", end_tag := "" }

/-- A top-level goal (`tree.rs`, `Goal`). -/
structure Goal where
  name : String
  label : Option String
  requires : Option (List String)
  href : Option String
deriving DecidableEq, Repr

/-- An item inside a group (`tree.rs`, `Item`). -/
structure Item where
  label : String
  href : Option String
  port : Option String
  requires : Option (List String)
  status : Option String
deriving DecidableEq, Repr

/-- A group of items (`tree.rs`, `Group`); `width` is unused by rendering and omitted. -/
structure Group where
  name : String
  label : Option String
  requires : Option (List String)
  items : List Item
  status : Option String
  href : Option String
  header_color : Option String
deriving DecidableEq, Repr

/-- The whole tree (`tree.rs`, `SkillTree`); the status registry is an association list. -/
structure SkillTree where
  status : List (String × StatusStyle)
  default_status : Option String
  group : List Group
  goal : Option (List Goal)
deriving DecidableEq, Repr

/-- `SkillTree::goals` — iterate the optional goal list. -/
def SkillTree.goals (t : SkillTree) : List Goal := t.goal.getD []

/-- `SkillTree::groups` — iterate the group list. -/
def SkillTree.groups (t : SkillTree) : List Group := t.group

/-- `SkillTree::is_goal` — does any goal carry this name? -/
def SkillTree.is_goal (t : SkillTree) (name : String) : Bool :=
  t.goals.any (fun g => g.name == name)

/-- `HashMap::get` on the status registry, modelled as first-match lookup. -/
def SkillTree.statusGet (t : SkillTree) (key : String) : Option StatusStyle :=
  (t.status.find? (fun p => p.1 == key)).map (fun p => p.2)

/-- `Item::validate` (`tree.rs` lines 166-174): the body is only comments. -/
def Item.validate (_it : Item) : Except String Unit := .ok ()

/-- The `for item in &self.items { item.validate()? }` loop of `Group::validate`. -/
def Group.validateItems : List Item → Except String Unit
  | [] => .ok ()
  | it :: rest =>
    match it.validate with
    | .error e => .error e
    | .ok () => Group.validateItems rest

/-- `Group::validate` (`tree.rs` lines 147-159): only recurses into the items. -/
def Group.validate (g : Group) : Except String Unit :=
  Group.validateItems g.items

/-- The `for group in &self.group { group.validate()? }` loop of `SkillTree::validate`. -/
def SkillTree.validateGroups : List Group → Except String Unit
  | [] => .ok ()
  | g :: rest =>
    match g.validate with
    | .error e => .error e
    | .ok () => SkillTree.validateGroups rest

/-- `SkillTree::validate` (`tree.rs` lines 125-132): only recurses into the groups. -/
def SkillTree.validate (t : SkillTree) : Except String Unit :=
  SkillTree.validateGroups t.group

/-- One character of `htmlescape::encode_minimal`: the five HTML-significant
characters become entities, everything else passes through. -/
def encode_minimal_char (c : Char) : String :=
  if c = '&' then "&amp;"
  else if c = '<' then "&lt;"
  else if c = '>' then "&gt;"
  else if c = dquote then "&quot;"
  else if c = squote then "&#x27;"
  else String.singleton c

/-- `htmlescape::encode_minimal` over a character list. -/
def encode_minimal_list : List Char → List Char
  | [] => []
  | c :: cs => (encode_minimal_char c).data ++ encode_minimal_list cs

/-- `htmlescape::encode_minimal` on strings. -/
def encode_minimal (s : String) : String := ⟨encode_minimal_list s.data⟩

/-- One character of `str::replace` with the single-character pattern `\n`. -/
def replace_newline_list : List Char → List Char
  | [] => []
  | c :: cs => (if c = '\n' then "<br/>".data else [c]) ++ replace_newline_list cs

/-- `.replace(c, "<br/>")` applied with the newline character. -/
def replace_newline (s : String) : String := ⟨replace_newline_list s.data⟩

/-- `escape` (`graphviz.rs` lines 95-97):
`htmlescape::encode_minimal(s).replace(newline, "<br/>")`. -/
def escape (s : String) : String := replace_newline (encode_minimal s)

/-- `str::find(":")` followed by the two slices `[..index]` and `[index + 1..]`:
split a character list at its first colon, or `none` when there is none. -/
def split_at_colon : List Char → Option (List Char × List Char)
  | [] => none
  | c :: rest =>
    if c = ':' then some ([], rest)
    else
      match split_at_colon rest with
      | none => none
      | some (a, b) => some (c :: a, b)

/-- `SkillTree::port_name` (`graphviz.rs` lines 181-192): resolve one
requirement token into a graph anchor for the given mode. -/
def SkillTree.port_name (t : SkillTree) (requires : String) (mode : String) : String :=
  match split_at_colon requires.data with
  | some (name, port) =>
    "\"" ++ String.mk name ++ "\":_" ++ String.mk port ++ "_" ++ mode
  | none =>
    if t.is_goal requires then "\"" ++ requires ++ "\""
    else "\"" ++ requires ++ "\":all"

/-- `attribute_str` (`graphviz.rs` lines 173-178). -/
def attribute_str (label : String) (text : Option String) (suffix : String) : String :=
  match text with
  | none => ""
  | some t => " " ++ label ++ "=\"" ++ t ++ suffix ++ "\""

/-- The status-name cascade of `write_group_label` (`graphviz.rs` lines 128-132):
`item.status.or(group.status).or(tree.default_status)`. -/
def item_status (t : SkillTree) (g : Group) (it : Item) : Option String :=
  (it.status.or g.status).or t.default_status

/-- The style lookup of `write_group_label` (`graphviz.rs` lines 134-137):
look the cascaded name up in the registry, defaulting to the inert style. -/
def resolved_style (t : SkillTree) (g : Group) (it : Item) : StatusStyle :=
  match (item_status t g it).bind (fun x => t.statusGet x) with
  | some style => style
  | none => StatusStyle.default

/-- The hyperlink-underline adjustment of `write_group_label`
(`graphviz.rs` lines 142-145). -/
def adjusted_style (it : Item) (style : StatusStyle) : StatusStyle :=
  if it.href.isSome && style.start_tag == "" then
    { style with start_tag := "<u>", end_tag := "</u>" }
  else style

/-- One item row of the group table (`graphviz.rs` lines 127-167). -/
def item_row (t : SkillTree) (g : Group) (it : Item) : String :=
  let style0 := resolved_style t g it
  let fontcolor := attribute_str "fontcolor" style0.fontcolor ""
  let bgcolor := attribute_str "bgcolor" style0.bgcolor ""
  let href := attribute_str "href" it.href ""
  let style := adjusted_style it style0
  let port := it.port.map (fun p => "_" ++ p)
  let port_in := attribute_str "port" port "_in"
  let port_out := attribute_str "port" port "_out"
  "    <tr><td" ++ bgcolor ++ port_in ++ ">" ++ (style.emoji.getD "") ++ "</td><td"
    ++ fontcolor ++ bgcolor ++ href ++ port_out ++ ">"
    ++ style.start_tag ++ it.label ++ style.end_tag ++ "</td></tr>\n"

/-- The header row of the group table (`graphviz.rs` lines 110-125). -/
def header_row (g : Group) : String :=
  "    <tr><td bgcolor=\"" ++ (g.header_color.getD "darkgoldenrod")
    ++ "\" port=\"all\" colspan=\"2\"" ++ attribute_str "href" g.href "" ++ ">"
    ++ escape (g.label.getD g.name) ++ "</td></tr>\n"

/-- Concatenation of a list of emitted fragments, in order. -/
def joinStrings : List String → String
  | [] => ""
  | s :: rest => s ++ joinStrings rest

/-- `write_group_label` (`graphviz.rs` lines 106-171). -/
def write_group_label (t : SkillTree) (g : Group) : String :=
  "  label = <<table>\n" ++ header_row g
    ++ joinStrings (g.items.map (item_row t g)) ++ "  </table>>\n"

/-- `write_goal_label` (`graphviz.rs` lines 99-104). -/
def write_goal_label (g : Goal) : String :=
  "  label = \"" ++ escape (g.label.getD g.name) ++ "\"\n"

/-- One group node declaration (`write_graphviz`, lines 28-34). -/
def group_node (t : SkillTree) (g : Group) : String :=
  "\"" ++ g.name ++ "\" [\n" ++ write_group_label t g
    ++ "  shape = \"none\"\n" ++ "  margin = 0\n" ++ "]\n"

/-- One goal node declaration (`write_graphviz`, lines 36-44). -/
def goal_node (g : Goal) : String :=
  "\"" ++ g.name ++ "\" [\n" ++ write_goal_label g
    ++ "  shape = \"note\"\n" ++ "  margin = 0\n" ++ "  style = \"filled\"\n"
    ++ "  fillcolor = \"darkgoldenrod\"\n" ++ "]\n"

/-- The group-requirement edges of one group (`write_graphviz`, lines 46-56). -/
def group_requires_edges (t : SkillTree) (g : Group) : String :=
  joinStrings ((g.requires.getD []).map (fun req =>
    t.port_name req "out" ++ " -> " ++ t.port_name g.name "in" ++ ";\n"))

/-- The item-requirement edges of one item (`write_graphviz`, lines 58-75):
fails with the "missing port" error when the item has requirements but no port. -/
def item_edges (t : SkillTree) (gname : String) (it : Item) : Except String String :=
  match it.requires with
  | none => .ok ""
  | some reqs =>
    if reqs.isEmpty then .ok ""
    else
      match it.port with
      | none => .error ("missing port for: " ++ it.label)
      | some port =>
        .ok (joinStrings (reqs.map (fun req =>
          t.port_name req "out" ++ " -> \"" ++ gname ++ "\":_" ++ port ++ "_in;\n")))

/-- The `for item in group.items()` loop of `write_graphviz` (lines 58-75). -/
def items_edges (t : SkillTree) (gname : String) : List Item → Except String String
  | [] => .ok ""
  | it :: rest =>
    match item_edges t gname it with
    | .error e => .error e
    | .ok s =>
      match items_edges t gname rest with
      | .error e => .error e
      | .ok r => .ok (s ++ r)

/-- The edge-emitting `for group in tree.groups()` loop of `write_graphviz`
(lines 46-76): per group, its group-requirement edges then its item edges. -/
def groups_edges (t : SkillTree) : List Group → Except String String
  | [] => .ok ""
  | g :: rest =>
    match items_edges t g.name g.items with
    | .error e => .error e
    | .ok s =>
      match groups_edges t rest with
      | .error e => .error e
      | .ok r => .ok (group_requires_edges t g ++ s ++ r)

/-- The goal-requirement edges of one goal (`write_graphviz`, lines 78-89). -/
def goal_requires_edges (t : SkillTree) (g : Goal) : String :=
  joinStrings ((g.requires.getD []).map (fun req =>
    t.port_name req "out" ++ " -> " ++ t.port_name g.name "in" ++ ";\n"))

/-- The fixed preamble of `write_graphviz` (lines 23-26). -/
def gv_header : String :=
  "digraph g \x7b\n" ++ "graph [ rankdir = \"LR\" ];\n"
    ++ "node [ fontsize=\"16\", shape = \"ellipse\" ];\n" ++ "edge [ ];\n"

/-- `write_graphviz` (`graphviz.rs` lines 21-92), with the sink modelled as the
returned string: preamble, group nodes, goal nodes, per-group edges
(group requirements then item requirements, interleaved per group),
goal edges, closing brace. -/
def write_graphviz (t : SkillTree) : Except String String :=
  match groups_edges t t.group with
  | .error e => .error e
  | .ok edges =>
    .ok (gv_header
      ++ joinStrings (t.group.map (group_node t))
      ++ joinStrings (t.goals.map goal_node)
      ++ edges
      ++ joinStrings (t.goals.map (goal_requires_edges t))
      ++ "\x7d\n")

/-- `SkillTree::to_graphviz` (`graphviz.rs` lines 13-18); UTF-8 re-validation of
the buffer cannot fail in the pure-string model. -/
def SkillTree.to_graphviz (t : SkillTree) : Except String String :=
  write_graphviz t

/-! Characterisation of `escape` as a single pass over the characters. -/

/-- The five characters that `encode_minimal` rewrites into entities. -/
def markup_sensitive : List Char := ['&', '<', '>', dquote, squote]

/-- Single-pass description of what `escape` does to one character. -/
def escape_char (c : Char) : String :=
  if c = '\n' then "<br/>" else encode_minimal_char c

/-- Single-pass description of `escape` over a character list. -/
def escape_chars : List Char → List Char
  | [] => []
  | c :: cs => (escape_char c).data ++ escape_chars cs

lemma replace_newline_list_append (a b : List Char) :
    replace_newline_list (a ++ b) = replace_newline_list a ++ replace_newline_list b := by
  induction a with
  | nil => rfl
  | cons c cs ih => simp [replace_newline_list, ih]

lemma encode_minimal_char_no_newline (c : Char) (h : c ≠ '\n') :
    '\n' ∉ (encode_minimal_char c).data := by
  unfold encode_minimal_char
  split_ifs <;> first
    | decide
    | (simp only [show ∀ d : Char, (String.singleton d).data = [d] from fun _ => rfl,
        List.mem_singleton]
       exact fun hc => h hc.symm)

lemma replace_newline_list_of_no_newline (l : List Char) (h : '\n' ∉ l) :
    replace_newline_list l = l := by
  induction l with
  | nil => rfl
  | cons c cs ih =>
    simp only [List.mem_cons, not_or] at h
    have hc : ¬ c = '\n' := fun hc => h.1 hc.symm
    simp [replace_newline_list, hc, ih h.2]

lemma replace_encode_char (c : Char) :
    replace_newline_list (encode_minimal_char c).data = (escape_char c).data := by
  by_cases h : c = '\n'
  · subst h; decide
  · rw [escape_char, if_neg h]
    exact replace_newline_list_of_no_newline _ (encode_minimal_char_no_newline c h)

lemma replace_encode_list (l : List Char) :
    replace_newline_list (encode_minimal_list l) = escape_chars l := by
  induction l with
  | nil => rfl
  | cons c cs ih =>
    simp only [encode_minimal_list, escape_chars, replace_newline_list_append, ih,
      replace_encode_char]

lemma escape_char_no_newline (c : Char) : '\n' ∉ (escape_char c).data := by
  unfold escape_char
  by_cases h : c = '\n'
  · rw [if_pos h]; decide
  · rw [if_neg h]; exact encode_minimal_char_no_newline c h

lemma escape_chars_no_newline (l : List Char) : '\n' ∉ escape_chars l := by
  induction l with
  | nil => simp [escape_chars]
  | cons c cs ih =>
    simp only [escape_chars, List.mem_append, not_or]
    exact ⟨escape_char_no_newline c, ih⟩

lemma escape_char_safe (c : Char) (h : c ∉ markup_sensitive) (hn : c ≠ '\n') :
    escape_char c = String.singleton c := by
  simp only [markup_sensitive, List.mem_cons, List.not_mem_nil, or_false, not_or] at h
  rw [escape_char, if_neg hn, encode_minimal_char, if_neg h.1, if_neg h.2.1,
    if_neg h.2.2.1, if_neg h.2.2.2.1, if_neg h.2.2.2.2]

lemma escape_chars_safe (l : List Char)
    (h : ∀ c ∈ l, c ∉ markup_sensitive ∧ c ≠ '\n') : escape_chars l = l := by
  induction l with
  | nil => rfl
  | cons c cs ih =>
    have hc := h c (List.mem_cons_self c cs)
    rw [escape_chars, escape_char_safe c hc.1 hc.2,
      ih (fun d hd => h d (List.mem_cons_of_mem c hd))]
    rfl

/-- C7: `escape` acts character by character — every newline becomes the
line-break markup `<br/>`, the five markup-sensitive characters become
entities, and everything else passes through (the `escape_chars`
characterisation); it is the identity on strings containing no
markup-sensitive character and no newline; and its output never contains a
literal newline. -/
theorem escape_spec (s : String) :
    escape s = ⟨escape_chars s.data⟩
    ∧ ((∀ c ∈ s.data, c ∉ markup_sensitive ∧ c ≠ '\n') → escape s = s)
    ∧ '\n' ∉ (escape s).data := by
  have hchar : escape s = ⟨escape_chars s.data⟩ :=
    congrArg String.mk (replace_encode_list s.data)
  refine ⟨hchar, fun h => ?_, ?_⟩
  · rw [hchar, escape_chars_safe s.data h]
  · rw [hchar]; exact escape_chars_no_newline s.data

/-- Witness for C7 at the concrete safe string "abc". -/
theorem escape_spec_witness :
    (∀ c ∈ ("abc" : String).data, c ∉ markup_sensitive ∧ c ≠ '\n')
    ∧ escape "abc" = "abc" :=
  ⟨by decide, (escape_spec "abc").2.1 (by decide)⟩

/-- Concrete tree used to witness determinism. -/
def treeC9 : SkillTree :=
  { status := []
  , default_status := some "Unassigned"
  , group := [
      { name := "basics", label := none, requires := none
      , items := [
          { label := "A", href := none, port := some "a", requires := none, status := none }
        ]
      , status := none, href := none, header_color := none }
    ]
  , goal := some [
      { name := "done", label := none, requires := some ["basics"], href := none }
    ] }

/-- C9: graph emission is deterministic — it is a pure function of the tree, so
equal trees produce byte-identical output (both for the sink-writing entry
point and the string-producing one). -/
theorem write_graphviz_deterministic (t₁ t₂ : SkillTree) (h : t₁ = t₂) :
    write_graphviz t₁ = write_graphviz t₂
    ∧ SkillTree.to_graphviz t₁ = SkillTree.to_graphviz t₂ := by
  subst h
  exact ⟨rfl, rfl⟩

/-- Witness for C9 at a concrete tree. -/
theorem write_graphviz_deterministic_witness :
    write_graphviz treeC9 = write_graphviz treeC9
    ∧ SkillTree.to_graphviz treeC9 = SkillTree.to_graphviz treeC9 :=
  write_graphviz_deterministic treeC9 treeC9 rfl

lemma validateItems_ok (l : List Item) : Group.validateItems l = .ok () := by
  induction l with
  | nil => rfl
  | cons it rest ih => exact ih

lemma validateGroups_ok (l : List Group) : SkillTree.validateGroups l = .ok () := by
  induction l with
  | nil => rfl
  | cons g rest ih =>
    simp [SkillTree.validateGroups, Group.validate, validateItems_ok, ih]

/-- C10: every `validate` method succeeds on every input — none of the
documented structural checks is actually enforced by validation. -/
theorem validate_always_ok (t : SkillTree) (g : Group) (it : Item) :
    t.validate = .ok () ∧ g.validate = .ok () ∧ it.validate = .ok () :=
  ⟨validateGroups_ok t.group, validateItems_ok g.items, rfl⟩

/-! Reference resolution (`port_name`). -/

lemma split_at_colon_of_no_colon (l : List Char) (h : ':' ∉ l) :
    split_at_colon l = none := by
  induction l with
  | nil => rfl
  | cons c cs ih =>
    simp only [List.mem_cons, not_or] at h
    have hc : ¬ c = ':' := fun hc => h.1 hc.symm
    simp [split_at_colon, hc, ih h.2]

lemma split_at_colon_append (a b : List Char) (h : ':' ∉ a) :
    split_at_colon (a ++ ':' :: b) = some (a, b) := by
  induction a with
  | nil => simp [split_at_colon]
  | cons c cs ih =>
    simp only [List.mem_cons, not_or] at h
    have hc : ¬ c = ':' := fun hc => h.1 hc.symm
    simp [split_at_colon, hc, ih h.2]

/-- Concrete tree for the C3 counterexample and witness: one group named g,
no goals. -/
def treeC3 : SkillTree :=
  { status := []
  , default_status := none
  , group := [
      { name := "g", label := none, requires := none, items := []
      , status := none, href := none, header_color := none }
    ]
  , goal := none }

/-- Modelled from the spec: the anchor format asserted by claim C3, in which
the group-case anchor named `all` is additionally suffixed with the
direction (written here as `all_` followed by the mode). -/
def port_name_claimed (t : SkillTree) (requires : String) (mode : String) : String :=
  match split_at_colon requires.data with
  | some (name, port) =>
    "\"" ++ String.mk name ++ "\":_" ++ String.mk port ++ "_" ++ mode
  | none =>
    if t.is_goal requires then "\"" ++ requires ++ "\""
    else "\"" ++ requires ++ "\":all_" ++ mode

/-- Counterexample for C3: resolving the group name g in direction `in`
produces the bare header anchor with no direction suffix, contradicting the
claimed `all` anchor "suffixed with the direction". -/
theorem port_name_group_direction_counterexample :
    SkillTree.port_name treeC3 "g" "in" = "\"g\":all"
    ∧ SkillTree.port_name treeC3 "g" "in" ≠ port_name_claimed treeC3 "g" "in" := by
  decide

/-- C3 (amended): for a token containing the port separator, the anchor is the
quoted name followed by the underscored port suffixed with the direction; for
a goal name the anchor is the bare quoted node regardless of direction; for
any other (group) name the anchor is the quoted name followed by the header
port `all`, with no direction suffix. -/
theorem port_name_resolution (t : SkillTree) (mode : String) :
    (∀ name port : String, ':' ∉ name.data →
       t.port_name (name ++ ":" ++ port) mode
         = "\"" ++ name ++ "\":_" ++ port ++ "_" ++ mode)
    ∧ (∀ req : String, ':' ∉ req.data → t.is_goal req = true →
       t.port_name req mode = "\"" ++ req ++ "\"")
    ∧ (∀ req : String, ':' ∉ req.data → t.is_goal req = false →
       t.port_name req mode = "\"" ++ req ++ "\":all") := by
  refine ⟨fun name port h => ?_, fun req h hg => ?_, fun req h hg => ?_⟩
  · have hd : (name ++ ":" ++ port).data = name.data ++ ':' :: port.data := by
      simp [String.data_append]
    simp only [SkillTree.port_name, hd, split_at_colon_append name.data port.data h]
  · simp only [SkillTree.port_name, split_at_colon_of_no_colon req.data h, hg, if_true]
  · simp only [SkillTree.port_name, split_at_colon_of_no_colon req.data h, hg,
      Bool.false_eq_true, if_false]

/-- Witness for C3 at concrete inputs over `treeC3`. -/
theorem port_name_resolution_witness :
    (':' ∉ ("basics" : String).data)
    ∧ SkillTree.port_name treeC3 ("basics" ++ ":" ++ "a") "out"
        = "\"" ++ "basics" ++ "\":_" ++ "a" ++ "_" ++ "out" :=
  ⟨by decide, (port_name_resolution treeC3 "out").1 "basics" "a" (by decide)⟩

/-- Concrete tree for C2: one group named g whose requirement token names the
nonexistent entity ghost; no goal or group is named ghost. -/
def treeC2 : SkillTree :=
  { status := []
  , default_status := none
  , group := [
      { name := "g", label := none, requires := some ["ghost"], items := []
      , status := none, href := none, header_color := none }
    ]
  , goal := none }

/-- C2 (code-bug demonstration): the token ghost names an entity in neither
the group set nor the goal set, yet reference resolution produces the anchor
for it and whole-tree emission succeeds — the code defines no
InvalidReferenceError at all. -/
theorem port_name_ghost_no_error :
    SkillTree.port_name treeC2 "ghost" "out" = "\"ghost\":all"
    ∧ (write_graphviz treeC2).isOk = true := by
  decide

/-! Style resolution. -/

/-- C4: the status-name cascade takes the first present of item status, group
status and tree default status; the winning name is looked up in the
registry; a missing name or a name absent from the registry yields the inert
default style (no glyph, no colors, empty decoration tags); a registered name
yields its registered style. Style resolution is a total function, so it can
never abort rendering. -/
theorem status_cascade (t : SkillTree) (g : Group) (it : Item) :
    (∀ s, it.status = some s → item_status t g it = some s)
    ∧ (it.status = none → ∀ s, g.status = some s → item_status t g it = some s)
    ∧ (it.status = none → g.status = none → item_status t g it = t.default_status)
    ∧ (item_status t g it = none → resolved_style t g it = StatusStyle.default)
    ∧ (∀ s, item_status t g it = some s → t.statusGet s = none →
        resolved_style t g it = StatusStyle.default)
    ∧ (∀ s style, item_status t g it = some s → t.statusGet s = some style →
        resolved_style t g it = style)
    ∧ StatusStyle.default
        = { emoji := none, bgcolor := none, fontcolor := none
          , start_tag := "", end_tag := "" } := by
  refine ⟨fun s hs => ?_, fun h1 s hs => ?_, fun h1 h2 => ?_,
    fun h => ?_, fun s hs hg => ?_, fun s style hs hg => ?_, rfl⟩
  · simp [item_status, hs, Option.or]
  · simp [item_status, h1, hs, Option.or]
  · simp [item_status, h1, h2, Option.or]
  · simp [resolved_style, h]
  · simp [resolved_style, hs, hg]
  · simp [resolved_style, hs, hg]

/-- Concrete registry entry for the C4 witness. -/
def styleC4 : StatusStyle :=
  { emoji := some "W", bgcolor := some "cornsilk", fontcolor := none
  , start_tag := "", end_tag := "" }

/-- Concrete group for the C4 witness: no status of its own. -/
def grpC4 : Group :=
  { name := "g", label := none, requires := none, items := []
  , status := none, href := none, header_color := none }

/-- Concrete item for the C4 witness: no status of its own. -/
def itC4 : Item :=
  { label := "x", href := none, port := none, requires := none, status := none }

/-- Concrete tree for the C4 witness: only the tree default status is set. -/
def treeC4 : SkillTree :=
  { status := [("Blocked", styleC4)]
  , default_status := some "Blocked"
  , group := [grpC4]
  , goal := none }

/-- Witness for C4: with item and group status absent, the tree default wins
and its registered style is used. -/
theorem status_cascade_witness :
    itC4.status = none ∧ grpC4.status = none
    ∧ item_status treeC4 grpC4 itC4 = treeC4.default_status
    ∧ resolved_style treeC4 grpC4 itC4 = styleC4 :=
  ⟨rfl, rfl, (status_cascade treeC4 grpC4 itC4).2.2.1 rfl rfl,
    (status_cascade treeC4 grpC4 itC4).2.2.2.2.2.1 "Blocked" styleC4 (by decide) (by decide)⟩

/-- C8: an item with a hyperlink whose resolved style has an empty start tag
gets the implicit underline tags; when the style defines a start tag, or the
item has no hyperlink, the style tags are used unchanged. -/
theorem hyperlink_underline (t : SkillTree) (g : Group) (it : Item) :
    (it.href.isSome = true → (resolved_style t g it).start_tag = "" →
       adjusted_style it (resolved_style t g it)
         = { resolved_style t g it with start_tag := "<u>", end_tag := "</u>" })
    ∧ ((resolved_style t g it).start_tag ≠ "" →
       adjusted_style it (resolved_style t g it) = resolved_style t g it)
    ∧ (it.href = none →
       adjusted_style it (resolved_style t g it) = resolved_style t g it) := by
  refine ⟨fun h1 h2 => ?_, fun h => ?_, fun h => ?_⟩
  · simp [adjusted_style, h1, h2]
  · simp [adjusted_style, h]
  · simp [adjusted_style, h]

/-- Concrete group for the C8 witness. -/
def grpC8 : Group :=
  { name := "g", label := none, requires := none, items := []
  , status := none, href := none, header_color := none }

/-- Concrete item for the C8 witness: carries a hyperlink. -/
def itC8 : Item :=
  { label := "x", href := some "https://example.org", port := none
  , requires := none, status := none }

/-- Concrete tree for the C8 witness: no styles anywhere, so the resolved
style is the inert default with an empty start tag. -/
def treeC8 : SkillTree :=
  { status := [], default_status := none, group := [grpC8], goal := none }

/-- Witness for C8: hyperlink plus empty start tag yields the implicit
underline tags. -/
theorem hyperlink_underline_witness :
    itC8.href.isSome = true
    ∧ (resolved_style treeC8 grpC8 itC8).start_tag = ""
    ∧ adjusted_style itC8 (resolved_style treeC8 grpC8 itC8)
        = { resolved_style treeC8 grpC8 itC8 with
            start_tag := "<u>", end_tag := "</u>" } :=
  ⟨rfl, rfl, (hyperlink_underline treeC8 grpC8 itC8).1 rfl rfl⟩

/-! The missing-port error of the emitter. -/

/-- Does this item have a non-empty requirement list? (The only situation in
which the emitter reads the port of an item.) -/
def Item.has_requires (it : Item) : Bool :=
  match it.requires with
  | none => false
  | some rs => !rs.isEmpty

lemma item_edges_error_of_offender (t : SkillTree) (gname : String) (it : Item)
    (hp : it.port = none) (hr : it.has_requires = true) :
    item_edges t gname it = .error ("missing port for: " ++ it.label) := by
  cases hreq : it.requires with
  | none => simp [Item.has_requires, hreq] at hr
  | some rs =>
    have hr' : rs.isEmpty = false := by
      simpa [Item.has_requires, hreq] using hr
    simp [item_edges, hreq, hr', hp]

lemma item_edges_ok_of_ported (t : SkillTree) (gname : String) (it : Item)
    (h : it.has_requires = true → it.port ≠ none) :
    ∃ s, item_edges t gname it = .ok s := by
  cases hreq : it.requires with
  | none => exact ⟨"", by simp [item_edges, hreq]⟩
  | some rs =>
    cases he : rs.isEmpty with
    | true => exact ⟨"", by simp [item_edges, hreq, he]⟩
    | false =>
      have hp : it.port ≠ none := h (by simp [Item.has_requires, hreq, he])
      cases hport : it.port with
      | none => exact absurd hport hp
      | some p =>
        exact ⟨joinStrings (rs.map (fun req =>
          t.port_name req "out" ++ " -> \"" ++ gname ++ "\":_" ++ p ++ "_in;\n")),
          by simp [item_edges, hreq, he, hport]⟩

lemma items_edges_error_of_offender (t : SkillTree) (gname : String) (l : List Item)
    (h : ∃ it ∈ l, it.port = none ∧ it.has_requires = true) :
    ∃ it ∈ l, it.port = none ∧ it.has_requires = true ∧
      items_edges t gname l = .error ("missing port for: " ++ it.label) := by
  induction l with
  | nil =>
    obtain ⟨it, hm, _⟩ := h
    exact absurd hm (List.not_mem_nil it)
  | cons a rest ih =>
    by_cases ha : a.port = none ∧ a.has_requires = true
    · refine ⟨a, List.mem_cons_self a rest, ha.1, ha.2, ?_⟩
      simp [items_edges, item_edges_error_of_offender t gname a ha.1 ha.2]
    · have hrest : ∃ it ∈ rest, it.port = none ∧ it.has_requires = true := by
        obtain ⟨it, hm, hit⟩ := h
        rcases List.mem_cons.mp hm with heq | hm'
        · subst heq; exact absurd hit ha
        · exact ⟨it, hm', hit⟩
      obtain ⟨it, hm, hp, hr, heq⟩ := ih hrest
      obtain ⟨s, hs⟩ :=
        item_edges_ok_of_ported t gname a (fun hreq hport => ha ⟨hport, hreq⟩)
      exact ⟨it, List.mem_cons_of_mem a hm, hp, hr, by simp [items_edges, hs, heq]⟩

lemma items_edges_ok_of_ported (t : SkillTree) (gname : String) (l : List Item)
    (h : ∀ it ∈ l, it.has_requires = true → it.port ≠ none) :
    ∃ s, items_edges t gname l = .ok s := by
  induction l with
  | nil => exact ⟨"", rfl⟩
  | cons a rest ih =>
    obtain ⟨s, hs⟩ := item_edges_ok_of_ported t gname a (h a (List.mem_cons_self a rest))
    obtain ⟨r, hr⟩ := ih (fun it hm => h it (List.mem_cons_of_mem a hm))
    exact ⟨s ++ r, by simp [items_edges, hs, hr]⟩

lemma groups_edges_error_of_offender (t : SkillTree) (gl : List Group)
    (h : ∃ g ∈ gl, ∃ it ∈ g.items, it.port = none ∧ it.has_requires = true) :
    ∃ g ∈ gl, ∃ it ∈ g.items, it.port = none ∧ it.has_requires = true ∧
      groups_edges t gl = .error ("missing port for: " ++ it.label) := by
  induction gl with
  | nil =>
    obtain ⟨g, hm, _⟩ := h
    exact absurd hm (List.not_mem_nil g)
  | cons a rest ih =>
    by_cases hg : ∃ it ∈ a.items, it.port = none ∧ it.has_requires = true
    · obtain ⟨it, hm, hp, hr, heq⟩ := items_edges_error_of_offender t a.name a.items hg
      exact ⟨a, List.mem_cons_self a rest, it, hm, hp, hr, by simp [groups_edges, heq]⟩
    · have hrest : ∃ g ∈ rest, ∃ it ∈ g.items, it.port = none ∧ it.has_requires = true := by
        obtain ⟨g, hm, hit⟩ := h
        rcases List.mem_cons.mp hm with heq | hm'
        · subst heq; exact absurd hit hg
        · exact ⟨g, hm', hit⟩
      obtain ⟨g, hm, it, hmi, hp, hr, heq⟩ := ih hrest
      have hok : ∃ s, items_edges t a.name a.items = .ok s := by
        apply items_edges_ok_of_ported
        intro it' hm' hreq
        intro hpn
        exact hg ⟨it', hm', hpn, hreq⟩
      obtain ⟨s, hs⟩ := hok
      exact ⟨g, List.mem_cons_of_mem a hm, it, hmi, hp, hr,
        by simp [groups_edges, hs, heq]⟩

lemma groups_edges_ok_of_ported (t : SkillTree) (gl : List Group)
    (h : ∀ g ∈ gl, ∀ it ∈ g.items, it.has_requires = true → it.port ≠ none) :
    ∃ s, groups_edges t gl = .ok s := by
  induction gl with
  | nil => exact ⟨"", rfl⟩
  | cons a rest ih =>
    obtain ⟨s, hs⟩ :=
      items_edges_ok_of_ported t a.name a.items (h a (List.mem_cons_self a rest))
    obtain ⟨r, hr⟩ := ih (fun g hm => h g (List.mem_cons_of_mem a hm))
    exact ⟨group_requires_edges t a ++ s ++ r, by simp [groups_edges, hs, hr]⟩

/-- C1: if any item in any group has a non-empty requirement list but no
declared port, emission fails with the missing-port error naming such an
item's label; conversely, when every item with requirements declares a port,
emission succeeds (no other failure exists in the model). `to_graphviz`
shares the behaviour of `write_graphviz` exactly. -/
theorem write_graphviz_missing_port (t : SkillTree) :
    ((∃ g ∈ t.group, ∃ it ∈ g.items, it.port = none ∧ it.has_requires = true) →
      ∃ g ∈ t.group, ∃ it ∈ g.items, it.port = none ∧ it.has_requires = true ∧
        write_graphviz t = .error ("missing port for: " ++ it.label))
    ∧ ((∀ g ∈ t.group, ∀ it ∈ g.items, it.has_requires = true → it.port ≠ none) →
      (write_graphviz t).isOk = true)
    ∧ SkillTree.to_graphviz t = write_graphviz t := by
  refine ⟨fun h => ?_, fun h => ?_, rfl⟩
  · obtain ⟨g, hm, it, hmi, hp, hr, heq⟩ := groups_edges_error_of_offender t t.group h
    exact ⟨g, hm, it, hmi, hp, hr, by simp [write_graphviz, heq]⟩
  · obtain ⟨s, hs⟩ := groups_edges_ok_of_ported t t.group h
    simp [write_graphviz, hs, Except.isOk, Except.toBool]

/-- Concrete tree for the C1 witness: its single item has a requirement but
no port. -/
def treeC1 : SkillTree :=
  { status := []
  , default_status := none
  , group := [
      { name := "g", label := none, requires := none
      , items := [
          { label := "x", href := none, port := none
          , requires := some ["g:a"], status := none }
        ]
      , status := none, href := none, header_color := none }
    ]
  , goal := none }

/-- Witness for C1: emission on `treeC1` fails naming the offending item. -/
theorem write_graphviz_missing_port_witness :
    ∃ g ∈ treeC1.group, ∃ it ∈ g.items, it.port = none ∧ it.has_requires = true ∧
      write_graphviz treeC1 = .error ("missing port for: " ++ it.label) :=
  (write_graphviz_missing_port treeC1).1 (by decide)

/-! Output ordering of the emitter. -/

deriving instance DecidableEq for Except

/-- The item-requirement edge lines of one item as a pure string (empty when
the item has no port; only meaningful under the no-missing-port hypothesis). -/
def item_edges_str (t : SkillTree) (gname : String) (it : Item) : String :=
  match it.port with
  | none => ""
  | some port =>
    joinStrings ((it.requires.getD []).map (fun req =>
      t.port_name req "out" ++ " -> \"" ++ gname ++ "\":_" ++ port ++ "_in;\n"))

lemma item_edges_eq_str (t : SkillTree) (gname : String) (it : Item)
    (h : it.has_requires = true → it.port ≠ none) :
    item_edges t gname it = .ok (item_edges_str t gname it) := by
  cases hreq : it.requires with
  | none =>
    cases hp : it.port with
    | none => simp [item_edges, item_edges_str, hreq, hp, joinStrings]
    | some p => simp [item_edges, item_edges_str, hreq, hp, joinStrings]
  | some rs =>
    cases he : rs.isEmpty with
    | true =>
      have hrs : rs = [] := List.isEmpty_iff.mp he
      subst hrs
      cases hp : it.port with
      | none => simp [item_edges, item_edges_str, hreq, hp, joinStrings]
      | some p => simp [item_edges, item_edges_str, hreq, hp, joinStrings]
    | false =>
      have hp : it.port ≠ none := h (by simp [Item.has_requires, hreq, he])
      cases hport : it.port with
      | none => exact absurd hport hp
      | some p => simp [item_edges, item_edges_str, hreq, he, hport]

lemma items_edges_eq_str (t : SkillTree) (gname : String) (l : List Item)
    (h : ∀ it ∈ l, it.has_requires = true → it.port ≠ none) :
    items_edges t gname l = .ok (joinStrings (l.map (item_edges_str t gname))) := by
  induction l with
  | nil => rfl
  | cons a rest ih =>
    simp only [items_edges, item_edges_eq_str t gname a (h a (List.mem_cons_self a rest)),
      ih (fun it hm => h it (List.mem_cons_of_mem a hm)), List.map_cons, joinStrings]

lemma groups_edges_eq_str (t : SkillTree) (gl : List Group)
    (h : ∀ g ∈ gl, ∀ it ∈ g.items, it.has_requires = true → it.port ≠ none) :
    groups_edges t gl = .ok (joinStrings (gl.map (fun g =>
      group_requires_edges t g
        ++ joinStrings (g.items.map (item_edges_str t g.name))))) := by
  induction gl with
  | nil => rfl
  | cons a rest ih =>
    simp only [groups_edges,
      items_edges_eq_str t a.name a.items (h a (List.mem_cons_self a rest)),
      ih (fun g hm => h g (List.mem_cons_of_mem a hm)), List.map_cons, joinStrings,
      String.append_assoc]

/-- The `for each group, all its item edges` fold used below to state the
claimed phase ordering (same failure behaviour as the real emitter). -/
def items_edges_all (t : SkillTree) : List Group → Except String String
  | [] => .ok ""
  | g :: rest =>
    match items_edges t g.name g.items with
    | .error e => .error e
    | .ok s =>
      match items_edges_all t rest with
      | .error e => .error e
      | .ok r => .ok (s ++ r)

/-- Modelled from the spec: the output shape asserted by claim C5, in which
all group-level requirement edges (across all groups) are emitted before any
item-level requirement edge. -/
def write_graphviz_claimed (t : SkillTree) : Except String String :=
  match items_edges_all t t.group with
  | .error e => .error e
  | .ok item_part =>
    .ok (gv_header
      ++ joinStrings (t.group.map (group_node t))
      ++ joinStrings (t.goals.map goal_node)
      ++ joinStrings (t.group.map (group_requires_edges t))
      ++ item_part
      ++ joinStrings (t.goals.map (goal_requires_edges t))
      ++ "\x7d\n")

/-- Concrete two-group tree on which the claimed phase ordering differs from
the emitted one: the first group has both a group-level requirement and an
item-level requirement, the second group has a group-level requirement, so
the emitted interleaving (per group) separates the two group-level edges. -/
def treeC5 : SkillTree :=
  { status := []
  , default_status := none
  , group := [
      { name := "a", label := none, requires := some ["b"]
      , items := [
          { label := "i", href := none, port := some "p"
          , requires := some ["b"], status := none }
        ]
      , status := none, href := none, header_color := none }
    , { name := "b", label := none, requires := some ["a"], items := []
      , status := none, href := none, header_color := none }
    ]
  , goal := none }

/-- Counterexample for C5: on `treeC5` the emitted output is not of the
claimed all-group-edges-then-all-item-edges shape. -/
theorem write_graphviz_phase_order_counterexample :
    write_graphviz treeC5 ≠ write_graphviz_claimed treeC5 := by
  decide

/-- C5 (amended): when no item is missing a port, the output consists of, in
order: the fixed preamble, one node declaration per group in declaration
order, one node declaration per goal in declaration order, then — for each
group in declaration order — that group's group-level requirement edges
followed by its items' item-level edges (both in declaration order), then the
goal-level requirement edges in declaration order, then the closing brace;
everything is emitted by structure-preserving maps, with no sorting or
deduplication anywhere. -/
theorem write_graphviz_output_order (t : SkillTree)
    (h : ∀ g ∈ t.group, ∀ it ∈ g.items, it.has_requires = true → it.port ≠ none) :
    write_graphviz t = .ok (gv_header
      ++ joinStrings (t.group.map (group_node t))
      ++ joinStrings (t.goals.map goal_node)
      ++ joinStrings (t.group.map (fun g =>
           group_requires_edges t g
             ++ joinStrings (g.items.map (item_edges_str t g.name))))
      ++ joinStrings (t.goals.map (goal_requires_edges t))
      ++ "\x7d\n") := by
  unfold write_graphviz
  rw [groups_edges_eq_str t t.group h]

/-- Witness for C5 at the concrete tree `treeC9` (all items ported). -/
theorem write_graphviz_output_order_witness :
    (∀ g ∈ treeC9.group, ∀ it ∈ g.items, it.has_requires = true → it.port ≠ none)
    ∧ write_graphviz treeC9 = .ok (gv_header
      ++ joinStrings (treeC9.group.map (group_node treeC9))
      ++ joinStrings (treeC9.goals.map goal_node)
      ++ joinStrings (treeC9.group.map (fun g =>
           group_requires_edges treeC9 g
             ++ joinStrings (g.items.map (item_edges_str treeC9 g.name))))
      ++ joinStrings (treeC9.goals.map (goal_requires_edges treeC9))
      ++ "\x7d\n") :=
  ⟨by decide, write_graphviz_output_order treeC9 (by decide)⟩

/-! The item label in a rendered row. -/

lemma joinStrings_cons (s : String) (l : List String) :
    joinStrings (s :: l) = s ++ joinStrings l := rfl

lemma joinStrings_append (a b : List String) :
    joinStrings (a ++ b) = joinStrings a ++ joinStrings b := by
  induction a with
  | nil => simp [joinStrings, String.empty_append]
  | cons s rest ih => simp [joinStrings, ih, String.append_assoc]

/-- Everything in an item row that precedes the decorated label. -/
def item_row_head (t : SkillTree) (g : Group) (it : Item) : String :=
  "    <tr><td" ++ attribute_str "bgcolor" (resolved_style t g it).bgcolor ""
    ++ attribute_str "port" (it.port.map (fun p => "_" ++ p)) "_in" ++ ">"
    ++ ((adjusted_style it (resolved_style t g it)).emoji.getD "") ++ "</td><td"
    ++ attribute_str "fontcolor" (resolved_style t g it).fontcolor ""
    ++ attribute_str "bgcolor" (resolved_style t g it).bgcolor ""
    ++ attribute_str "href" it.href ""
    ++ attribute_str "port" (it.port.map (fun p => "_" ++ p)) "_out" ++ ">"

lemma item_row_decomp (t : SkillTree) (g : Group) (it : Item) :
    item_row t g it = item_row_head t g it
      ++ ((adjusted_style it (resolved_style t g it)).start_tag
          ++ it.label
          ++ (adjusted_style it (resolved_style t g it)).end_tag
          ++ "</td></tr>\n") := by
  simp [item_row, item_row_head, String.append_assoc]

/-- Modelled from the spec: the item row as claim C6 asserts it, identical to
`item_row` except that the label is escaped before being wrapped in the
decoration tags. -/
def item_row_claimed (t : SkillTree) (g : Group) (it : Item) : String :=
  let style0 := resolved_style t g it
  let fontcolor := attribute_str "fontcolor" style0.fontcolor ""
  let bgcolor := attribute_str "bgcolor" style0.bgcolor ""
  let href := attribute_str "href" it.href ""
  let style := adjusted_style it style0
  let port := it.port.map (fun p => "_" ++ p)
  let port_in := attribute_str "port" port "_in"
  let port_out := attribute_str "port" port "_out"
  "    <tr><td" ++ bgcolor ++ port_in ++ ">" ++ (style.emoji.getD "") ++ "</td><td"
    ++ fontcolor ++ bgcolor ++ href ++ port_out ++ ">"
    ++ style.start_tag ++ escape it.label ++ style.end_tag ++ "</td></tr>\n"

/-- Concrete item whose label contains a markup-sensitive character. -/
def itC6 : Item :=
  { label := "a<b", href := none, port := none, requires := none, status := none }

/-- Concrete group holding `itC6`. -/
def grpC6 : Group :=
  { name := "g", label := none, requires := none, items := [itC6]
  , status := none, href := none, header_color := none }

/-- Concrete tree holding `grpC6`. -/
def treeC6 : SkillTree :=
  { status := [], default_status := none, group := [grpC6], goal := none }

/-- Counterexample for C6: the rendered row embeds the label `a<b` verbatim,
not its escaped form, so the row differs from the claimed (escaping) one. -/
theorem item_label_escape_counterexample :
    item_row treeC6 grpC6 itC6 = "    <tr><td></td><td>a<b</td></tr>\n"
    ∧ item_row treeC6 grpC6 itC6 ≠ item_row_claimed treeC6 grpC6 itC6 := by
  decide

/-- C6 (amended): for every item of a group, the rendered group label contains
that item's row, whose right cell holds the item's display label verbatim —
with no escaping applied — wrapped in the resolved (underline-adjusted)
style's start and end decoration tags. -/
theorem item_label_rendered_raw (t : SkillTree) (g : Group) (it : Item)
    (h : it ∈ g.items) :
    ∃ pre suf, write_group_label t g
      = pre ++ ((adjusted_style it (resolved_style t g it)).start_tag
          ++ it.label
          ++ (adjusted_style it (resolved_style t g it)).end_tag
          ++ "</td></tr>\n") ++ suf := by
  obtain ⟨l1, l2, hsplit⟩ := List.append_of_mem h
  refine ⟨"  label = <<table>\n" ++ header_row g
      ++ joinStrings (l1.map (item_row t g)) ++ item_row_head t g it,
    joinStrings (l2.map (item_row t g)) ++ "  </table>>\n", ?_⟩
  simp only [write_group_label, hsplit, List.map_append, List.map_cons,
    joinStrings_append, joinStrings_cons, item_row_decomp, String.append_assoc]

/-- Witness for C6 at the concrete tree `treeC6`. -/
theorem item_label_rendered_raw_witness :
    itC6 ∈ grpC6.items
    ∧ ∃ pre suf, write_group_label treeC6 grpC6
      = pre ++ ((adjusted_style itC6 (resolved_style treeC6 grpC6 itC6)).start_tag
          ++ itC6.label
          ++ (adjusted_style itC6 (resolved_style treeC6 grpC6 itC6)).end_tag
          ++ "</td></tr>\n") ++ suf :=
  ⟨by decide, item_label_rendered_raw treeC6 grpC6 itC6 (by decide)⟩

end STree
